import Mathlib

/-!
Verification of the QIR → QIS translation pipeline (`qir-qis`).

This file gives a shallow embedding, in Lean, of the parts of the Rust
sources (`src/lib.rs`, `src/convert.rs`, `src/decompose.rs`, `src/opt.rs`)
that the claims C1–C10 are about, and proves or refutes each claim.

Modelling conventions:
* LLVM SSA values are modelled by natural numbers drawn from a fresh-name
  counter; machine integers (`u8`, `u32`, `u64`) are modelled by `Nat`
  with explicit bounds where overflow or ranges matter.
* Rust `Result<_, String>` becomes `Except String _`; a Rust indexing
  panic on an out-of-range index is modelled as an `Except.error`.
* Strings are Lean `String`s; Rust's byte view `str::as_bytes` is
  modelled by an explicit UTF-8 encoder producing `List Nat`.
* Calls emitted through the inkwell `Builder` are modelled as explicit
  instruction lists.  `Builder::build_gep` applied to a constant global
  pointer with constant indices is folded by LLVM's `ConstantFolder`
  into a constant expression, so it does not appear as an instruction;
  `build_load` and `build_call` always create instructions.
-/

namespace QirQis

/-! ## Byte strings (model of Rust `str::as_bytes`)

Rust's `create_cl_str` measures the *byte* length of the concatenated
string.  We encode Lean strings to UTF-8 byte lists (each byte a `Nat`
below 256), matching `str::as_bytes` / `str::len`. -/

/-- UTF-8 encoding of a single character, as a list of byte values. -/
def utf8EncodeCharNat (c : Char) : List Nat :=
  let n := c.toNat
  if n < 0x80 then [n]
  else if n < 0x800 then
    [0xC0 ||| (n >>> 6), 0x80 ||| (n &&& 0x3F)]
  else if n < 0x10000 then
    [0xE0 ||| (n >>> 12), 0x80 ||| ((n >>> 6) &&& 0x3F), 0x80 ||| (n &&& 0x3F)]
  else
    [0xF0 ||| (n >>> 18), 0x80 ||| ((n >>> 12) &&& 0x3F),
     0x80 ||| ((n >>> 6) &&& 0x3F), 0x80 ||| (n &&& 0x3F)]

/-- UTF-8 bytes of a string (model of Rust `str::as_bytes`). -/
def utf8Bytes (s : String) : List Nat :=
  s.data.flatMap utf8EncodeCharNat

/-! ## `create_cl_str` (src/convert.rs)

Source:
```rust
fn create_cl_str(tag: &str, ty: &str, label: &str) -> Result<Vec<u8>, String> {
    let new_str = format!("{tag}:{ty}:{label}");
    let new_bytes = new_str.as_bytes();
    let new_len = new_bytes.len();
    if new_len >= 256 {
        return Err(format!("Constant string too long: {new_len} >= 256"));
    }
    let new_cl_str_bytes = [&[u8::try_from(new_len) ...?], new_bytes].concat();
    Ok(new_cl_str_bytes)
}
```
The `u8::try_from` cannot fail after the `new_len >= 256` test, so the
success path prepends the length byte directly. -/

/-- Model of `create_cl_str`: length-prefixed `"TAG:TYPE:LABEL"` byte string. -/
def create_cl_str (tag ty label : String) : Except String (List Nat) :=
  let newStr := tag ++ ":" ++ ty ++ ":" ++ label
  let newBytes := utf8Bytes newStr
  let newLen := newBytes.length
  if newLen ≥ 256 then
    Except.error ("Constant string too long: " ++ toString newLen ++ " >= 256")
  else
    Except.ok (newLen :: newBytes)

/-- C8: the theorem below characterises `create_cl_str` on all inputs. -/
theorem create_cl_str_cases (tag ty label : String) :
    (256 ≤ (utf8Bytes (tag ++ ":" ++ ty ++ ":" ++ label)).length →
      create_cl_str tag ty label =
        Except.error ("Constant string too long: " ++
          toString (utf8Bytes (tag ++ ":" ++ ty ++ ":" ++ label)).length ++ " >= 256")) ∧
    ((utf8Bytes (tag ++ ":" ++ ty ++ ":" ++ label)).length < 256 →
      create_cl_str tag ty label =
        Except.ok ((utf8Bytes (tag ++ ":" ++ ty ++ ":" ++ label)).length ::
          utf8Bytes (tag ++ ":" ++ ty ++ ":" ++ label))) := by
  constructor
  · intro h
    simp [create_cl_str, h]
  · intro h
    simp [create_cl_str, Nat.not_le.mpr h]

/-- A 256-character label; the concatenated tag string then reaches 268
bytes. -/
def bigLabel : String := String.mk (List.replicate 256 'a')

set_option maxRecDepth 4000 in
/-- Witness for C8: a short label is length-prefixed, the 256-character
label is rejected. -/
theorem create_cl_str_cases_witness :
    create_cl_str "USER" "RESULT" "out0" =
      Except.ok ((utf8Bytes ("USER" ++ ":" ++ "RESULT" ++ ":" ++ "out0")).length ::
        utf8Bytes ("USER" ++ ":" ++ "RESULT" ++ ":" ++ "out0")) ∧
    create_cl_str "USER" "RESULT" bigLabel =
      Except.error ("Constant string too long: " ++
        toString (utf8Bytes ("USER" ++ ":" ++ "RESULT" ++ ":" ++ bigLabel)).length ++
        " >= 256") :=
  ⟨(create_cl_str_cases "USER" "RESULT" "out0").2 (by decide),
   (create_cl_str_cases "USER" "RESULT" bigLabel).1 (by decide)⟩

/-! ## Decomposition builder (src/decompose.rs)

`build_decompositions` populates a transient module with `LinkOnceODR`
function bodies that express the high-level gates in terms of the three
native gates.  Every angle operand in the source is one of the named
`f64` constants built from `std::f64::consts::PI`; we represent those
constants symbolically. -/

/-- Symbolic angle constants used by `build_decompositions`. -/
inductive Angle where
  | zero              -- `const_zero()`
  | pi                -- `PI`
  | halfPi            -- `PI / 2.0`
  | negHalfPi         -- `PI / -2.0`
  | quarterPi         -- `PI / 4.0`
  | negQuarterPi      -- `PI / -4.0`
  | negThreeQuarterPi -- `3.0 * PI / -4.0`
  deriving DecidableEq

/-- An angle operand of a native-gate call inside a decomposition body:
either one of the constant angles or the function's n-th parameter. -/
inductive AngleArg where
  | const (a : Angle)
  | param (n : Nat)
  deriving DecidableEq

/-- One call to a native gate inside a decomposition body.  Qubit
operands are given by their position in the defined function's
parameter list.  The argument order of each constructor follows the
QIR signatures `rxy(θ₁, θ₂, q)`, `rz(θ, q)`, `rzz(θ, q₁, q₂)`. -/
inductive NativeCall where
  | rxy (θ₁ θ₂ : AngleArg) (q : Nat)
  | rz (θ : AngleArg) (q : Nat)
  | rzz (θ : AngleArg) (q₁ q₂ : Nat)
  deriving DecidableEq

/-- A gate definition added to the decomposition module: its symbol
name and the body, a straight-line sequence of native-gate calls
(each body ends with `ret void`, which we leave implicit). -/
structure GateDef where
  name : String
  body : List NativeCall
  deriving DecidableEq

/-- Model of `define_h_gate`: `rxy(π/2, −π/2, q); rz(π, q)`. -/
def define_h_gate : GateDef :=
  { name := "__quantum__qis__h__body"
    body := [.rxy (.const .halfPi) (.const .negHalfPi) 0, .rz (.const .pi) 0] }

/-- Model of `define_x_gate`: `rxy(π, 0, q)`. -/
def define_x_gate : GateDef :=
  { name := "__quantum__qis__x__body"
    body := [.rxy (.const .pi) (.const .zero) 0] }

/-- Model of `define_y_gate`: `rxy(π, π/2, q)`. -/
def define_y_gate : GateDef :=
  { name := "__quantum__qis__y__body"
    body := [.rxy (.const .pi) (.const .halfPi) 0] }

/-- Model of `define_z_gate`: `rz(π, q)`. -/
def define_z_gate : GateDef :=
  { name := "__quantum__qis__z__body"
    body := [.rz (.const .pi) 0] }

/-- Model of `define_s_gate`: `rz(π/2, q)`. -/
def define_s_gate : GateDef :=
  { name := "__quantum__qis__s__body"
    body := [.rz (.const .halfPi) 0] }

/-- Model of `define_s_adj_gate`: `rz(−π/2, q)`. -/
def define_s_adj_gate : GateDef :=
  { name := "__quantum__qis__s__adj"
    body := [.rz (.const .negHalfPi) 0] }

/-- Model of `define_t_gate`: `rz(π/4, q)`. -/
def define_t_gate : GateDef :=
  { name := "__quantum__qis__t__body"
    body := [.rz (.const .quarterPi) 0] }

/-- Model of `define_t_adj_gate`: `rz(−π/4, q)`. -/
def define_t_adj_gate : GateDef :=
  { name := "__quantum__qis__t__adj"
    body := [.rz (.const .negQuarterPi) 0] }

/-- Model of `define_rx_gate`: `rxy(θ, 0, q)` with `θ` = parameter 0,
`q` = parameter 1. -/
def define_rx_gate : GateDef :=
  { name := "__quantum__qis__rx__body"
    body := [.rxy (.param 0) (.const .zero) 1] }

/-- Model of `define_ry_gate`: `rxy(θ, π/2, q)`. -/
def define_ry_gate : GateDef :=
  { name := "__quantum__qis__ry__body"
    body := [.rxy (.param 0) (.const .halfPi) 1] }

/-- Model of `define_cz_gate`: control = parameter 0, target = parameter 1;
`rzz(π/2,c,t); rz(−π/2,t); rz(−π/2,c)`. -/
def define_cz_gate : GateDef :=
  { name := "__quantum__qis__cz__body"
    body := [.rzz (.const .halfPi) 0 1,
             .rz (.const .negHalfPi) 1,
             .rz (.const .negHalfPi) 0] }

/-- Model of `define_cx_gate` (shared by the `"cx"` and `"cnot"` symbol
names): control = parameter 0, target = parameter 1. -/
def define_cx_gate (fnName : String) : GateDef :=
  { name := "__quantum__qis__" ++ fnName ++ "__body"
    body := [.rxy (.const .negHalfPi) (.const .halfPi) 1,
             .rzz (.const .halfPi) 0 1,
             .rz (.const .negHalfPi) 0,
             .rxy (.const .halfPi) (.const .pi) 1,
             .rz (.const .negHalfPi) 1] }

/-- Model of `define_ccx_gate`: control1 = 0, control2 = 1, target = 2. -/
def define_ccx_gate : GateDef :=
  { name := "__quantum__qis__ccx__body"
    body := [.rxy (.const .pi) (.const .negHalfPi) 2,
             .rzz (.const .halfPi) 1 2,
             .rxy (.const .quarterPi) (.const .halfPi) 2,
             .rzz (.const .halfPi) 0 2,
             .rxy (.const .quarterPi) (.const .zero) 2,
             .rzz (.const .halfPi) 1 2,
             .rxy (.const .quarterPi) (.const .negHalfPi) 2,
             .rzz (.const .halfPi) 0 2,
             .rxy (.const .pi) (.const .quarterPi) 0,
             .rxy (.const .negThreeQuarterPi) (.const .pi) 2,
             .rzz (.const .quarterPi) 0 1,
             .rz (.const .pi) 2,
             .rxy (.const .pi) (.const .negQuarterPi) 0,
             .rz (.const .negThreeQuarterPi) 1,
             .rz (.const .quarterPi) 0] }

/-- Model of `build_decompositions`: the gate definitions added to the
decomposition module, in source order. -/
def build_decompositions : List GateDef :=
  [define_h_gate, define_x_gate, define_y_gate, define_z_gate,
   define_s_gate, define_s_adj_gate, define_t_gate, define_t_adj_gate,
   define_rx_gate, define_ry_gate,
   define_cz_gate, define_cx_gate "cx", define_cx_gate "cnot",
   define_ccx_gate]

/-- Look up a gate definition by symbol name. -/
def findGate (name : String) : Option GateDef :=
  build_decompositions.find? (fun g => g.name == name)

/-- C4: the decomposition module defines `__quantum__qis__cx__body`
(control = parameter 0, target = parameter 1) — and identically
`__quantum__qis__cnot__body` — as exactly the five-call sequence
`rxy(−π/2, π/2, t); rzz(π/2, c, t); rz(−π/2, c); rxy(π/2, π, t);
rz(−π/2, t)`, in that order. -/
theorem cx_decomposition_five_calls :
    findGate "__quantum__qis__cx__body" =
      some { name := "__quantum__qis__cx__body"
             body := [.rxy (.const .negHalfPi) (.const .halfPi) 1,
                      .rzz (.const .halfPi) 0 1,
                      .rz (.const .negHalfPi) 0,
                      .rxy (.const .halfPi) (.const .pi) 1,
                      .rz (.const .negHalfPi) 1] } ∧
    findGate "__quantum__qis__cnot__body" =
      some { name := "__quantum__qis__cnot__body"
             body := [.rxy (.const .negHalfPi) (.const .halfPi) 1,
                      .rzz (.const .halfPi) 0 1,
                      .rz (.const .negHalfPi) 0,
                      .rxy (.const .halfPi) (.const .pi) 1,
                      .rz (.const .negHalfPi) 1] } ∧
    (findGate "__quantum__qis__cx__body").map GateDef.body =
      (findGate "__quantum__qis__cnot__body").map GateDef.body := by
  refine ⟨?_, ?_, ?_⟩ <;> rfl

/-! ## Optimization-level selection (src/opt.rs)

`optimize` maps the `u32` argument `opt_level` to an inkwell
`OptimizationLevel` and a pass-pipeline string via a `match` whose
catch-all arm yields O2; `get_target_machine` rejects unknown target
names but the optimization level is never rejected. -/

/-- Model of inkwell's `OptimizationLevel` enum. -/
inductive OptimizationLevel where
  | noneLevel     -- `OptimizationLevel::None`
  | less          -- `OptimizationLevel::Less`
  | defaultLevel  -- `OptimizationLevel::Default`
  | aggressive    -- `OptimizationLevel::Aggressive`
  deriving DecidableEq

/-- A target configuration tuple `(name, cpu, triple, features)`. -/
def TargetConfig := String × String × String × String

instance : DecidableEq TargetConfig := by
  unfold TargetConfig
  infer_instance

/-- Default config for AArch64 codegen. -/
def AARCH64_CONFIG : TargetConfig :=
  ("aarch64", "cortex-a53", "aarch64-unknown-linux-gnu", "+neon,+fp-armv8,+crypto,+crc")

/-- Default config for x86-64 codegen. -/
def X86_CONFIG : TargetConfig :=
  ("x86-64", "x86-64", "x86_64-unknown-linux-gnu", "")

/-- Sentinel config for native codegen. -/
def NATIVE_CONFIG : TargetConfig := ("", "", "", "")

/-- Model of the target dispatch inside `get_target_machine`. -/
def targetConfigFor (target : String) : Except String TargetConfig :=
  match target with
  | "x86-64" => Except.ok X86_CONFIG
  | "aarch64" => Except.ok AARCH64_CONFIG
  | "native" => Except.ok NATIVE_CONFIG
  | _ => Except.error ("Invalid target architecture: " ++ target)

/-- Model of the `opt_level` match at the top of `optimize`. -/
def optSelect (optLevel : Nat) : OptimizationLevel × String :=
  match optLevel with
  | 0 => (.noneLevel, "default<O0>")
  | 1 => (.less, "default<O1>")
  | 3 => (.aggressive, "default<O3>")
  | _ => (.defaultLevel, "default<O2>")

/-- Model of the decision logic of `optimize`: the selected level and
pipeline string, with the only error source being the target lookup. -/
def optimizeSelect (optLevel : Nat) (target : String) :
    Except String (OptimizationLevel × String) :=
  (targetConfigFor target).map (fun _ => optSelect optLevel)

/-- C10: every `u32` opt level is accepted: 0, 1 and 3 select O0, O1 and
O3, and any other value (2 included, and every value above 3) selects O2;
for each supported target name `optimizeSelect` succeeds on every level. -/
theorem opt_level_total (n : Nat) (hn : n < 2 ^ 32) :
    optSelect 0 = (.noneLevel, "default<O0>") ∧
    optSelect 1 = (.less, "default<O1>") ∧
    optSelect 3 = (.aggressive, "default<O3>") ∧
    (n ≠ 0 → n ≠ 1 → n ≠ 3 → optSelect n = (.defaultLevel, "default<O2>")) ∧
    ((optimizeSelect n "aarch64").isOk ∧ (optimizeSelect n "x86-64").isOk ∧
      (optimizeSelect n "native").isOk) := by
  refine ⟨rfl, rfl, rfl, ?_, ?_, ?_, ?_⟩
  · intro h0 h1 h3
    match n, h0, h1, h3 with
    | 2, _, _, _ => rfl
    | n + 4, _, _, _ => rfl
  all_goals
    simp [optimizeSelect, targetConfigFor, Except.isOk, Except.toBool, Except.map]

/-- Witness for C10 at the concrete level 7: selected pipeline is O2. -/
theorem opt_level_total_witness :
    optSelect 7 = (.defaultLevel, "default<O2>") ∧
    (optimizeSelect 7 "aarch64").isOk := by
  have h := opt_level_total 7 (by norm_num)
  exact ⟨h.2.2.2.1 (by decide) (by decide) (by decide), h.2.2.2.2.1⟩

/-! ## `init_qubit` synthesis (src/convert.rs, `add_init_qubit_fn` and
`process_allocation_error`)

The synthesized `qir_qis.init_qubit(i)` function calls `___qalloc`,
compares the returned handle against `u64::MAX`, branches to a failure
block (`panic(1001, msg); unreachable`) on equality, and otherwise
resets the handle and stores it into `qis_qs[i]`.  We model the
function's behaviour, given the value returned by `___qalloc`, as the
list of observable events on the taken path.  The failure message
global is built at synthesis time by `create_cl_str`, whose error (never
hit for this fixed message) is propagated. -/

/-- Model of `u64::MAX`. -/
def U64_MAX : Nat := 2 ^ 64 - 1

/-- Exit code used by the allocation-failure panic (src/convert.rs). -/
def EXIT_CODE : Nat := 1001

/-- Bytes of the allocation-failure message global `e_qalloc_fail`. -/
def qallocFailMsg : Except String (List Nat) :=
  create_cl_str "EXIT" "INT" "No more qubits available to allocate."

/-- Observable events on one execution path of `qir_qis.init_qubit`. -/
inductive InitEvent where
  | qallocCall                          -- `call ___qalloc`
  | panicCall (code : Nat) (msg : List Nat) -- `call panic(code, msg_ptr)`
  | unreachableTerm                     -- `unreachable` terminator
  | resetCall (handle : Nat)            -- `call ___reset(handle)`
  | storeQs (index handle : Nat)        -- `store handle, qis_qs[index]`
  | retVoid
  deriving DecidableEq

/-- Model of running `qir_qis.init_qubit(index)` when `___qalloc`
returns `qallocRet`. -/
def initQubitRun (index qallocRet : Nat) : Except String (List InitEvent) := do
  let msg ← qallocFailMsg
  if qallocRet = U64_MAX then
    pure [.qallocCall, .panicCall EXIT_CODE msg, .unreachableTerm]
  else
    pure [.qallocCall, .resetCall qallocRet, .storeQs index qallocRet, .retVoid]

/-- C5: `init_qubit(i)` calls `___qalloc`; it reaches the failure block
— `panic(1001, ptr)` with the length-prefixed tagged message
`"EXIT:INT:No more qubits available to allocate."` followed by
`unreachable` — exactly when the returned handle equals `u64::MAX`;
otherwise it calls `___reset(handle)` and stores the handle into
`qis_qs[i]`. -/
theorem init_qubit_spec (i h : Nat) :
    (initQubitRun i h =
        Except.ok [.qallocCall,
          .panicCall 1001
            (46 :: utf8Bytes "EXIT:INT:No more qubits available to allocate."),
          .unreachableTerm]
      ↔ h = U64_MAX) ∧
    (h ≠ U64_MAX →
      initQubitRun i h =
        Except.ok [.qallocCall, .resetCall h, .storeQs i h, .retVoid]) := by
  have hmsg : qallocFailMsg =
      Except.ok (46 :: utf8Bytes "EXIT:INT:No more qubits available to allocate.") := rfl
  constructor
  · constructor
    · intro heq
      by_contra hne
      rw [initQubitRun, hmsg] at heq
      simp [hne] at heq
    · rintro rfl
      rfl
  · intro hne
    rw [initQubitRun, hmsg]
    simp [hne]

/-- Witness for C5: a handle of 5 is stored, the `u64::MAX` handle panics. -/
theorem init_qubit_spec_witness :
    initQubitRun 3 5 =
      Except.ok [.qallocCall, .resetCall 5, .storeQs 3 5, .retVoid] ∧
    initQubitRun 3 U64_MAX =
      Except.ok [.qallocCall,
        .panicCall 1001
          (46 :: utf8Bytes "EXIT:INT:No more qubits available to allocate."),
        .unreachableTerm] :=
  ⟨(init_qubit_spec 3 5).2 (by decide), ((init_qubit_spec 3 U64_MAX).1).2 rfl⟩

/-! ## Native gate-call lowering (src/convert.rs, `replace_native_call`,
`replace_rxy_call`, `replace_rz_call`, `replace_rzz_call`)

`replace_native_call` collects every LLVM operand of the old call
(the arguments followed, as last operand, by the callee), applies the
gate-specific `arg_map` closure — which emits one `qir_qis.load_qubit`
call per qubit-pointer operand and returns the new argument vector —
builds the new call, and erases the old one.  Operands are modelled as
opaque value identifiers (`Nat`). -/

/-- Argument of a lowered native-gate call: either the SSA result of
the `load_qubit` call emitted for qubit-pointer operand `q`, or one of
the original operands passed through unchanged. -/
inductive NewArg where
  | handleOf (q : Nat)
  | orig (v : Nat)
  deriving DecidableEq

/-- Entry-function instructions relevant to gate lowering.  For
`qisCall`, `operands` lists all LLVM operands of the call instruction:
the arguments in order, then the callee. -/
inductive CInstr where
  | qisCall (name : String) (operands : List Nat)
  | loadQubitCall (q : Nat)
  | nativeCall (name : String) (args : List NewArg)
  deriving DecidableEq

/-- Model of the `arg_map` closure of `replace_rxy_call`: load the
qubit from operand 2, pass operands 0 and 1 (the angles) through. -/
def rxyArgMap (args : List Nat) : Except String (List Nat × List NewArg) :=
  match args[2]?, args[0]?, args[1]? with
  | some q, some a0, some a1 => Except.ok ([q], [.handleOf q, .orig a0, .orig a1])
  | _, _, _ => Except.error "operand not found"

/-- Model of the `arg_map` closure of `replace_rz_call`. -/
def rzArgMap (args : List Nat) : Except String (List Nat × List NewArg) :=
  match args[1]?, args[0]? with
  | some q, some a0 => Except.ok ([q], [.handleOf q, .orig a0])
  | _, _ => Except.error "operand not found"

/-- Model of the `arg_map` closure of `replace_rzz_call`: load both
qubits (operands 1 and 2), pass operand 0 (the angle) through. -/
def rzzArgMap (args : List Nat) : Except String (List Nat × List NewArg) :=
  match args[1]?, args[2]?, args[0]? with
  | some q1, some q2, some a0 =>
      Except.ok ([q1, q2], [.handleOf q1, .handleOf q2, .orig a0])
  | _, _, _ => Except.error "operand not found"

/-- Model of `replace_native_call`: emit the `load_qubit` calls made by
`arg_map`, then the new native call; the old call is erased (it does
not appear in the result). -/
def replace_native_call (gateName : String)
    (argMap : List Nat → Except String (List Nat × List NewArg))
    (operands : List Nat) : Except String (List CInstr) := do
  let (loads, mapped) ← argMap operands
  pure (loads.map CInstr.loadQubitCall ++ [CInstr.nativeCall gateName mapped])

/-- Model of `replace_rxy_call`. -/
def replace_rxy_call (operands : List Nat) : Except String (List CInstr) :=
  replace_native_call "___rxy" rxyArgMap operands

/-- Model of `replace_rz_call`. -/
def replace_rz_call (operands : List Nat) : Except String (List CInstr) :=
  replace_native_call "___rz" rzArgMap operands

/-- Model of `replace_rzz_call`. -/
def replace_rzz_call (operands : List Nat) : Except String (List CInstr) :=
  replace_native_call "___rzz" rzzArgMap operands

/-- Model of the gate-call arms of `handle_qis_call` (src/lib.rs):
dispatch of the three native-gate names (and the `u1q` synonym, lowered
like `rxy`) to their replacement functions. -/
def rewriteGateCall (name : String) (operands : List Nat) :
    Except String (List CInstr) :=
  if name = "__quantum__qis__rxy__body" then replace_rxy_call operands
  else if name = "__quantum__qis__u1q__body" then replace_rxy_call operands
  else if name = "__quantum__qis__rz__body" then replace_rz_call operands
  else if name = "__quantum__qis__rzz__body" then replace_rzz_call operands
  else Except.error ("Unsupported QIR QIS function: " ++ name)

/-- C6: each `__quantum__qis__{rxy,rz,rzz}__body` call — whose QIR
operand order is angle(s) first, then qubit pointer(s), then the callee
— is replaced by a `___rxy`/`___rz`/`___rzz` call whose leading
argument(s) are the handles obtained by calling `load_qubit` on the
original qubit-pointer operand(s) and whose trailing argument(s) are
the original angle operand(s); the original call does not survive
(the result contains no `qisCall`). -/
theorem gate_call_lowering (θ₁ θ₂ θ q q₁ q₂ callee : Nat) :
    rewriteGateCall "__quantum__qis__rxy__body" [θ₁, θ₂, q, callee] =
      Except.ok [.loadQubitCall q,
        .nativeCall "___rxy" [.handleOf q, .orig θ₁, .orig θ₂]] ∧
    rewriteGateCall "__quantum__qis__rz__body" [θ, q, callee] =
      Except.ok [.loadQubitCall q,
        .nativeCall "___rz" [.handleOf q, .orig θ]] ∧
    rewriteGateCall "__quantum__qis__rzz__body" [θ, q₁, q₂, callee] =
      Except.ok [.loadQubitCall q₁, .loadQubitCall q₂,
        .nativeCall "___rzz" [.handleOf q₁, .handleOf q₂, .orig θ]] :=
  ⟨rfl, rfl, rfl⟩

/-- Witness for C6 at concrete operand identifiers. -/
theorem gate_call_lowering_witness :
    rewriteGateCall "__quantum__qis__rzz__body" [10, 20, 30, 99] =
      Except.ok [.loadQubitCall 20, .loadQubitCall 30,
        .nativeCall "___rzz" [.handleOf 20, .handleOf 30, .orig 10]] :=
  (gate_call_lowering 0 0 10 0 20 30 99).2.2

/-! ## Free-qubits epilogue (src/convert.rs, `free_all_qubits`)

For every `Return` instruction of the entry function, the builder is
positioned before it and, for i in 0..N, a GEP to `qis_qs[i]`, a load
of the element, and a `___qfree` call on the loaded handle are built.
The GEP has a constant global pointer and constant indices, so LLVM's
builder folds it to a constant expression: per qubit the emitted
*instructions* are one load and one call. -/

/-- Entry-function instructions as relevant to the free epilogue. -/
inductive EInstr where
  | op (tag : Nat)      -- any original non-return instruction
  | loadQs (i : Nat)    -- emitted load of `qis_qs[i]`
  | callQfree (i : Nat) -- emitted `call ___qfree` on the handle loaded from `qis_qs[i]`
  | ret
  deriving DecidableEq

/-- The instruction sequence emitted before a `ret` for `n` qubits. -/
def freeSeq (n : Nat) : List EInstr :=
  (List.range n).flatMap (fun i => [.loadQs i, .callQfree i])

/-- Model of `free_all_qubits` on one basic block: insert `freeSeq n`
immediately before every `Return`. -/
def free_all_qubits (n : Nat) (body : List EInstr) : List EInstr :=
  body.flatMap (fun ins =>
    match ins with
    | .ret => freeSeq n ++ [.ret]
    | other => [other])

theorem ret_not_mem_freeSeq (n : Nat) : EInstr.ret ∉ freeSeq n := by
  simp [freeSeq]

theorem append_cons_ret_eq (a b l₁ l₂ : List EInstr) (ha : EInstr.ret ∉ a)
    (h : a ++ EInstr.ret :: b = l₁ ++ EInstr.ret :: l₂) :
    (l₁ = a ∧ l₂ = b) ∨
      ∃ t, l₁ = a ++ EInstr.ret :: t ∧ b = t ++ EInstr.ret :: l₂ := by
  induction a generalizing l₁ with
  | nil =>
    cases l₁ with
    | nil =>
      simp only [List.nil_append] at h
      exact Or.inl ⟨rfl, (List.cons.injEq .. ▸ h).2.symm⟩
    | cons y t =>
      right
      refine ⟨t, ?_, ?_⟩
      · simp only [List.nil_append] at h
        obtain ⟨hy, -⟩ := List.cons.injEq .. ▸ h
        simp [← hy]
      · simp only [List.nil_append] at h
        exact (List.cons.injEq .. ▸ h).2
  | cons x a ih =>
    have hx : x ≠ EInstr.ret := fun hxe => ha (hxe ▸ List.mem_cons_self x a)
    have ha' : EInstr.ret ∉ a := fun hm => ha (List.mem_cons_of_mem x hm)
    cases l₁ with
    | nil =>
      exfalso
      simp only [List.cons_append, List.nil_append] at h
      exact hx (List.cons.injEq .. ▸ h).1
    | cons y t =>
      simp only [List.cons_append] at h
      obtain ⟨hy, hrest⟩ := List.cons.injEq .. ▸ h
      rcases ih t ha' hrest with ⟨h1, h2⟩ | ⟨u, h1, h2⟩
      · exact Or.inl ⟨by rw [hy, h1], h2⟩
      · exact Or.inr ⟨u, by rw [hy, h1, List.cons_append], h2⟩

/-- C2 (amended): after `free_all_qubits`, every `ret` of the entry
function is immediately preceded by the 2·N-instruction sequence
`load qis_qs[0]; call ___qfree; …; load qis_qs[N−1]; call ___qfree`
(the GEPs being constant-folded); in particular every array element in
0..N is freed directly before every return. -/
theorem qfree_epilogue_before_ret (n : Nat) (body l₁ l₂ : List EInstr)
    (h : free_all_qubits n body = l₁ ++ EInstr.ret :: l₂) :
    freeSeq n <:+ l₁ := by
  induction body generalizing l₁ l₂ with
  | nil => simp [free_all_qubits] at h
  | cons ins rest ih =>
    cases hins : ins with
    | ret =>
      rw [hins] at h
      have h' : freeSeq n ++ EInstr.ret :: free_all_qubits n rest =
          l₁ ++ EInstr.ret :: l₂ := by
        simpa [free_all_qubits, List.flatMap_cons] using h
      rcases append_cons_ret_eq _ _ _ _ (ret_not_mem_freeSeq n) h' with ⟨h1, _⟩ | ⟨t, h1, h2⟩
      · rw [h1]
      · have hsuf : freeSeq n <:+ t := ih t l₂ h2
        rw [h1, List.append_cons]
        exact hsuf.trans (List.suffix_append _ t)
    | op k =>
      rw [hins] at h
      have h' : EInstr.op k :: free_all_qubits n rest = l₁ ++ EInstr.ret :: l₂ := by
        simpa [free_all_qubits, List.flatMap_cons] using h
      cases l₁ with
      | nil => simp_all
      | cons y t =>
        simp only [List.cons_append] at h'
        exact (ih t l₂ (List.cons.injEq .. ▸ h').2).trans (List.suffix_cons y t)
    | loadQs k =>
      rw [hins] at h
      have h' : EInstr.loadQs k :: free_all_qubits n rest = l₁ ++ EInstr.ret :: l₂ := by
        simpa [free_all_qubits, List.flatMap_cons] using h
      cases l₁ with
      | nil => simp_all
      | cons y t =>
        simp only [List.cons_append] at h'
        exact (ih t l₂ (List.cons.injEq .. ▸ h').2).trans (List.suffix_cons y t)
    | callQfree k =>
      rw [hins] at h
      have h' : EInstr.callQfree k :: free_all_qubits n rest = l₁ ++ EInstr.ret :: l₂ := by
        simpa [free_all_qubits, List.flatMap_cons] using h
      cases l₁ with
      | nil => simp_all
      | cons y t =>
        simp only [List.cons_append] at h'
        exact (ih t l₂ (List.cons.injEq .. ▸ h').2).trans (List.suffix_cons y t)

/-- Counterexample for C2 as stated: with N = 2 and a body consisting
of a single `ret`, the two instructions immediately before the `ret`
are a load of `qis_qs[1]` followed by one `___qfree` call — they are
not two `___qfree` calls (one per element). -/
theorem qfree_last_n_counterexample :
    free_all_qubits 2 [EInstr.ret] =
      [.loadQs 0, .callQfree 0, .loadQs 1, .callQfree 1, .ret] ∧
    ((free_all_qubits 2 [EInstr.ret]).take 4).drop 2 =
      [EInstr.loadQs 1, EInstr.callQfree 1] ∧
    ¬ (∀ ins ∈ ((free_all_qubits 2 [EInstr.ret]).take 4).drop 2,
        ∃ i, ins = EInstr.callQfree i) := by
  refine ⟨by decide, by decide, ?_⟩
  intro hall
  rcases hall (EInstr.loadQs 1) (by decide) with ⟨i, hi⟩
  cases hi

/-- Witness for the amended C2: one qubit, one `ret` after an original
instruction. -/
theorem qfree_epilogue_before_ret_witness :
    freeSeq 1 <:+ [EInstr.op 0, EInstr.loadQs 0, EInstr.callQfree 0] :=
  qfree_epilogue_before_ret 1 [EInstr.op 0, EInstr.ret]
    [EInstr.op 0, EInstr.loadQs 0, EInstr.callQfree 0] [] rfl

/-! ## Validator (src/lib.rs, `validate_qir_core`, `validate_functions`,
`validate_module_flags`)

The validator walks a parsed module, accumulating error messages in a
`Vec<String>`; the non-wasm build is modelled (6-entry auxiliary
whitelist, `get_wasm_functions` returns an empty map).  Data-layout and
triple checks only log warnings and are omitted.  `errors.join("; ")`
is `String.intercalate "; "`. -/

/-- A metadata value as inspected by `validate_module_flags`. -/
inductive MdVal where
  | str (s : String)
  | int (n : Nat)
  | other
  deriving DecidableEq

/-- A function of the input module, as seen by the validator. -/
structure FnDecl where
  name : String
  hasBody : Bool                 -- `count_basic_blocks() > 0`
  returnsPointer : Bool          -- return type is a pointer type
  attrs : List (String × String) -- string attributes (kind id, value)
  deriving DecidableEq

/-- The input module, as seen by the validator. -/
structure ModuleModel where
  functions : List FnDecl
  flags : List (List MdVal)      -- nodes of the `llvm.module.flags` metadata
  deriving DecidableEq

/-- Model of `FunctionValue::get_string_attribute`. -/
def getStrAttr (f : FnDecl) (name : String) : Option String :=
  (f.attrs.find? (fun p => p.1 == name)).map (fun p => p.2)

/-- Model of Rust `str::parse::<u32>()`: digits with an optional leading
`+`; rejects the empty string, non-digit characters and values of 2^32
or more (Rust reports `PosOverflow` during the fold; extensionally the
result is the same `None`). -/
def parseDigits : List Char → Option Nat
  | [] => none
  | cs =>
    cs.foldl
      (fun acc c =>
        acc.bind (fun a => if c.isDigit then some (a * 10 + (c.toNat - 48)) else none))
      (some 0)

/-- Model of Rust `str::parse::<u32>()` on a whole string. -/
def parseU32 (s : String) : Option Nat :=
  let cs :=
    match s.data with
    | '+' :: rest => rest
    | l => l
  (parseDigits cs).bind (fun n => if n < 2 ^ 32 then some n else none)

/-- Whitelist `ALLOWED_QIS_FNS` (src/lib.rs). -/
def ALLOWED_QIS_FNS : List String :=
  ["__quantum__qis__rxy__body", "__quantum__qis__rz__body",
   "__quantum__qis__rzz__body", "__quantum__qis__mz__body",
   "__quantum__qis__reset__body", "__quantum__qis__mresetz__body",
   "__quantum__qis__u1q__body", "__quantum__qis__m__body",
   "__quantum__qis__h__body", "__quantum__qis__x__body",
   "__quantum__qis__y__body", "__quantum__qis__z__body",
   "__quantum__qis__s__body", "__quantum__qis__s__adj",
   "__quantum__qis__t__body", "__quantum__qis__t__adj",
   "__quantum__qis__rx__body", "__quantum__qis__ry__body",
   "__quantum__qis__cz__body", "__quantum__qis__cx__body",
   "__quantum__qis__cnot__body", "__quantum__qis__ccx__body"]

/-- Whitelist `ALLOWED_RT_FNS` (src/lib.rs). -/
def ALLOWED_RT_FNS : List String :=
  ["__quantum__rt__read_result", "__quantum__rt__initialize",
   "__quantum__rt__result_record_output", "__quantum__rt__array_record_output",
   "__quantum__rt__tuple_record_output", "__quantum__rt__bool_record_output",
   "__quantum__rt__double_record_output", "__quantum__rt__int_record_output"]

/-- Whitelist `ALLOWED_QTM_FNS` for the non-wasm build (src/lib.rs). -/
def ALLOWED_QTM_FNS : List String :=
  ["___get_current_shot", "___random_seed", "___random_int",
   "___random_float", "___random_int_bounded", "___random_advance"]

/-- Model of `find_entry_function`, additionally returning the position
of the entry function in the module's function list (LLVM function
values are compared by identity in `validate_functions`; the position
models that identity). -/
def findEntry (m : ModuleModel) : Option (Nat × FnDecl) :=
  m.functions.enum.find? (fun p => p.2.attrs.any (fun a => a.1 == "entry_point"))

/-- Error messages produced for one non-entry function by the loop body
of `validate_functions`. -/
def validateFunctionErrors (f : FnDecl) : List String :=
  if f.name.startsWith "__quantum__qis__" then
    if ALLOWED_QIS_FNS.contains f.name then []
    else ["Unsupported QIR QIS function: " ++ f.name]
  else if f.name.startsWith "__quantum__rt__" then
    if ALLOWED_RT_FNS.contains f.name then []
    else ["Unsupported QIR RT function: " ++ f.name]
  else if f.name.startsWith "___" then
    if ALLOWED_QTM_FNS.contains f.name then []
    else ["Unsupported Qtm QIS function: " ++ f.name]
  else if f.hasBody then
    (if f.name = "main" then ["IR defined function cannot be called `main`"] else []) ++
      (if f.returnsPointer then
        ["Function `" ++ f.name ++ "` cannot return a pointer type"] else [])
  else []

/-- Model of `validate_functions`: pushes messages for every function
other than the entry function onto the accumulated error vector. -/
def validate_functions (m : ModuleModel) (entryIdx : Nat)
    (errors : List String) : List String :=
  m.functions.enum.foldl
    (fun errs p => if p.1 = entryIdx then errs else errs ++ validateFunctionErrors p.2)
    errors

/-- The required module flags `(index, name, expected value, expected
text)` (src/lib.rs, `ModuleFlagState::new`). -/
def requiredFlags : List (Nat × String × Nat × String) :=
  [(0, "qir_major_version", 1, "1"),
   (1, "qir_minor_version", 0, "0"),
   (2, "dynamic_qubit_management", 0, "false"),
   (3, "dynamic_result_management", 0, "false")]

/-- Model of `ModuleFlagState`'s `found`/`wrong` arrays. -/
structure ModuleFlagState where
  found : List Bool
  wrong : List Bool
  deriving DecidableEq

/-- Model of `ModuleFlagState::new`. -/
def ModuleFlagState.init : ModuleFlagState :=
  ⟨[false, false, false, false], [false, false, false, false]⟩

/-- Model of `ModuleFlagState::set_state`: a flag is wrong when its
value is not an integer constant equal to the expected value. -/
def setFlagState (st : ModuleFlagState) (idx : Nat) (value : MdVal)
    (expected : Nat) : ModuleFlagState :=
  { found := st.found.set idx true
    wrong := st.wrong.set idx
      (match value with
       | .int n => n != expected
       | _ => true) }

/-- Model of the metadata scan in `validate_module_flags`: every
three-element node `[_, key, value]` whose key is a string naming a
required flag updates the state (later nodes overwrite earlier ones). -/
def scanModuleFlags (nodes : List (List MdVal)) : ModuleFlagState :=
  nodes.foldl
    (fun st node =>
      match node with
      | [_, MdVal.str key, value] =>
        match requiredFlags.find? (fun r => r.2.1 == key) with
        | some r => setFlagState st r.1 value r.2.2.1
        | none => st
      | _ => st)
    ModuleFlagState.init

/-- Model of the reporting loop of `validate_module_flags`. -/
def validate_module_flags (nodes : List (List MdVal))
    (errors : List String) : List String :=
  requiredFlags.foldl
    (fun errs r =>
      if !((scanModuleFlags nodes).found.getD r.1 false) then
        errs ++ ["Missing required module flag: `" ++ r.2.1 ++ "`"]
      else if (scanModuleFlags nodes).wrong.getD r.1 false then
        errs ++ ["Module flag `" ++ r.2.1 ++ "` must be " ++ r.2.2.2]
      else errs)
    errors

/-- The four required entry-point attributes (src/lib.rs). -/
def requiredAttrs : List String :=
  ["required_num_qubits", "required_num_results", "qir_profiles",
   "output_labeling_schema"]

/-- Error message for an entry function with no basic blocks. -/
def entryBlockErrors (entry : FnDecl) : List String :=
  if entry.hasBody then [] else ["Entry function has no basic blocks"]

/-- Messages for required attributes that are absent. -/
def missingAttrErrors (entry : FnDecl) : List String :=
  requiredAttrs.flatMap (fun attr =>
    if (getStrAttr entry attr).isNone then
      ["Missing required attribute: `" ++ attr ++ "`"]
    else [])

/-- Messages of the zero-count check: the source pushes an error only
when `get_string_attribute(..).and_then(parse::<u32>().ok())`
evaluates to `Some(0)`. -/
def attrValueErrors (entry : FnDecl) : List String :=
  [("required_num_qubits", "qubit"), ("required_num_results", "result")].flatMap
    (fun p =>
      if (getStrAttr entry p.1).bind parseU32 = some 0 then
        ["Entry function must have at least one " ++ p.2]
      else [])

/-- Model of `validate_qir_core` (non-wasm build): find the entry
function (if absent, report and return immediately), accumulate the
entry-attribute, function and module-flag findings in order, and fail
with their `"; "`-join when any finding exists. -/
def validate_qir_core (m : ModuleModel) : Except String Unit :=
  match findEntry m with
  | none => Except.error (String.intercalate "; " ["No entry function found in QIR module"])
  | some (idx, entry) =>
    let errors :=
      validate_module_flags m.flags
        (validate_functions m idx
          (entryBlockErrors entry ++ missingAttrErrors entry ++ attrValueErrors entry))
    if errors.isEmpty then Except.ok ()
    else Except.error (String.intercalate "; " errors)

/-- The findings of the per-function check, computed standalone. -/
def functionFindings (m : ModuleModel) (entryIdx : Nat) : List String :=
  m.functions.enum.flatMap
    (fun p => if p.1 = entryIdx then [] else validateFunctionErrors p.2)

/-- The findings of the module-flag check, computed standalone. -/
def flagFindings (nodes : List (List MdVal)) : List String :=
  requiredFlags.flatMap
    (fun r =>
      if !((scanModuleFlags nodes).found.getD r.1 false) then
        ["Missing required module flag: `" ++ r.2.1 ++ "`"]
      else if (scanModuleFlags nodes).wrong.getD r.1 false then
        ["Module flag `" ++ r.2.1 ++ "` must be " ++ r.2.2.2]
      else [])

/-- All validator findings for a module with entry `entry` at position
`idx`, one sublist per check, in reporting order. -/
def validatorFindings (m : ModuleModel) (idx : Nat) (entry : FnDecl) : List String :=
  entryBlockErrors entry ++ missingAttrErrors entry ++ attrValueErrors entry ++
    functionFindings m idx ++ flagFindings m.flags

theorem foldl_append_emit {α : Type} (g : α → List String) (l : List α)
    (errs : List String) :
    l.foldl (fun a x => a ++ g x) errs = errs ++ l.flatMap g := by
  induction l generalizing errs with
  | nil => simp
  | cons x l ih => simp [ih, List.append_assoc]

theorem validate_functions_eq (m : ModuleModel) (idx : Nat) (errs : List String) :
    validate_functions m idx errs = errs ++ functionFindings m idx := by
  have hfun : (fun (a : List String) (p : Nat × FnDecl) =>
      if p.1 = idx then a else a ++ validateFunctionErrors p.2) =
      (fun a p => a ++ (if p.1 = idx then [] else validateFunctionErrors p.2)) := by
    funext a p
    by_cases h : p.1 = idx <;> simp [h]
  unfold validate_functions functionFindings
  rw [hfun, foldl_append_emit]

theorem validate_module_flags_eq (nodes : List (List MdVal)) (errs : List String) :
    validate_module_flags nodes errs = errs ++ flagFindings nodes := by
  have hfun : (fun (a : List String) (r : Nat × String × Nat × String) =>
      if !((scanModuleFlags nodes).found.getD r.1 false) then
        a ++ ["Missing required module flag: `" ++ r.2.1 ++ "`"]
      else if (scanModuleFlags nodes).wrong.getD r.1 false then
        a ++ ["Module flag `" ++ r.2.1 ++ "` must be " ++ r.2.2.2]
      else a) =
      (fun a r => a ++
        (if !((scanModuleFlags nodes).found.getD r.1 false) then
          ["Missing required module flag: `" ++ r.2.1 ++ "`"]
        else if (scanModuleFlags nodes).wrong.getD r.1 false then
          ["Module flag `" ++ r.2.1 ++ "` must be " ++ r.2.2.2]
        else [])) := by
    funext a r
    split_ifs <;> simp
  unfold validate_module_flags flagFindings
  rw [hfun, foldl_append_emit]

/-- C7: whenever validation fails, the error is the `"; "`-join of the
accumulated findings list, which concatenates — in order — the messages
of the entry-body check, the missing-attribute check, the
attribute-value check, the per-function whitelist / IR-helper checks
and the module-flag checks; validation succeeds exactly when no check
produced a finding.  When no entry function exists the validator
reports and returns that single finding immediately. -/
theorem validator_aggregates_findings (m : ModuleModel) :
    (findEntry m = none →
      validate_qir_core m = Except.error "No entry function found in QIR module") ∧
    (∀ idx entry, findEntry m = some (idx, entry) →
      (validate_qir_core m = Except.ok () ↔ validatorFindings m idx entry = []) ∧
      (validatorFindings m idx entry ≠ [] →
        validate_qir_core m =
          Except.error (String.intercalate "; " (validatorFindings m idx entry)))) := by
  constructor
  · intro h
    simp only [validate_qir_core, h]
    rfl
  · intro idx entry h
    have hbody : validate_qir_core m =
        (if validatorFindings m idx entry = [] then Except.ok ()
         else Except.error (String.intercalate "; " (validatorFindings m idx entry))) := by
      simp only [validate_qir_core, h, validate_functions_eq, validate_module_flags_eq]
      simp only [validatorFindings, List.append_assoc, List.isEmpty_iff]
    constructor
    · rw [hbody]
      by_cases hne : validatorFindings m idx entry = [] <;> simp [hne]
    · intro hne
      rw [hbody, if_neg hne]

/-- A concrete module exercising several checks at once: an entry
function with no basic blocks and a missing attribute, a non-whitelisted
`__quantum__qis__` extern, and no module flags at all. -/
def entryMulti : FnDecl :=
  { name := "my_circuit", hasBody := false, returnsPointer := false
    attrs := [("entry_point", ""), ("required_num_qubits", "2"),
              ("required_num_results", "2"), ("qir_profiles", "base_profile")] }

/-- A module with several simultaneous validation failures. -/
def mMulti : ModuleModel :=
  { functions := [entryMulti,
      { name := "__quantum__qis__foo__body", hasBody := false,
        returnsPointer := false, attrs := [] }]
    flags := [] }

/-- Witness for C7: on `mMulti` the validator returns the join of all
findings of all failing checks. -/
theorem validator_aggregates_findings_witness :
    validate_qir_core mMulti =
      Except.error (String.intercalate "; " (validatorFindings mMulti 0 entryMulti)) :=
  ((validator_aggregates_findings mMulti).2 0 entryMulti rfl).2 (by decide)

/-- An entry function whose `required_num_qubits` does not parse as
`u32`; all other attributes and the module are valid. -/
def entryAbc : FnDecl :=
  { name := "my_circuit", hasBody := true, returnsPointer := false
    attrs := [("entry_point", ""), ("required_num_qubits", "abc"),
              ("required_num_results", "1"), ("qir_profiles", "base_profile"),
              ("output_labeling_schema", "labeled")] }

/-- The correct module flags. -/
def goodFlags : List (List MdVal) :=
  [[.int 1, .str "qir_major_version", .int 1],
   [.int 1, .str "qir_minor_version", .int 0],
   [.int 1, .str "dynamic_qubit_management", .int 0],
   [.int 1, .str "dynamic_result_management", .int 0]]

/-- A module whose only defect is the unparsable `required_num_qubits`. -/
def mAbc : ModuleModel := { functions := [entryAbc], flags := goodFlags }

/-- Counterexample for C3 as stated: `required_num_qubits = "abc"` does
not parse as a `u32`, yet validation reports no error at all for it —
the whole validator succeeds. -/
theorem attr_nonparse_counterexample :
    parseU32 "abc" = none ∧
    getStrAttr entryAbc "required_num_qubits" = some "abc" ∧
    validate_qir_core mAbc = Except.ok () :=
  ⟨rfl, rfl, rfl⟩

/-- An entry function with `required_num_qubits = "0"`, otherwise valid. -/
def entryZero : FnDecl :=
  { name := "my_circuit", hasBody := true, returnsPointer := false
    attrs := [("entry_point", ""), ("required_num_qubits", "0"),
              ("required_num_results", "1"), ("qir_profiles", "base_profile"),
              ("output_labeling_schema", "labeled")] }

/-- A module whose only defect is `required_num_qubits = "0"`. -/
def mZero : ModuleModel := { functions := [entryZero], flags := goodFlags }

/-- C3 (amended): validation reports the "at least one qubit" (resp.
"result") error for `required_num_qubits` (resp. `required_num_results`)
exactly when the attribute is present and parses as a `u32` equal to 0;
a value that fails to parse as `u32` produces no finding (only a missing
attribute does).  In particular `required_num_qubits = "0"` makes
validation fail with the error containing "at least one qubit". -/
theorem attr_zero_check (entry : FnDecl) :
    ("Entry function must have at least one qubit" ∈ attrValueErrors entry ↔
      (getStrAttr entry "required_num_qubits").bind parseU32 = some 0) ∧
    ("Entry function must have at least one result" ∈ attrValueErrors entry ↔
      (getStrAttr entry "required_num_results").bind parseU32 = some 0) ∧
    validate_qir_core mZero =
      Except.error "Entry function must have at least one qubit" := by
  refine ⟨?_, ?_, rfl⟩ <;>
    by_cases h1 : (getStrAttr entry "required_num_qubits").bind parseU32 = some 0 <;>
    by_cases h2 : (getStrAttr entry "required_num_results").bind parseU32 = some 0 <;>
    simp [attrValueErrors, h1, h2]

/-- Witness for the amended C3 at the concrete entries `entryZero` and
`entryAbc`. -/
theorem attr_zero_check_witness :
    "Entry function must have at least one qubit" ∈ attrValueErrors entryZero ∧
    ¬ "Entry function must have at least one qubit" ∈ attrValueErrors entryAbc :=
  ⟨((attr_zero_check entryZero).1).mpr rfl,
   fun hmem => by cases ((attr_zero_check entryAbc).1).mp hmem⟩

/-! ## Deferred-measurement rewriting (src/lib.rs, `handle_mz_call` and
`handle_read_result_call`)

The entry rewriter keeps `result_ssa :
Vec<Option<(BasicValueEnum, Option<BasicValueEnum>)>>` — one cell per
result index holding the `___lazy_measure` future and the lazily
cached boolean — and walks the call instructions in order.  We model
SSA values as naturals drawn from a fresh counter, the walk as a fold
over an event list, and the emitted calls as an instruction list.
Result and qubit pointers are modelled by the indices that `get_index`
extracts from their `inttoptr` text.  A Rust `Vec` indexing panic on an
out-of-range result index is modelled as an error. -/

/-- Rewriter state: the result-SSA table and the fresh-SSA counter. -/
structure RState where
  resultSSA : List (Option (Nat × Option Nat))
  fresh : Nat
  deriving DecidableEq

/-- Instructions emitted by the measurement/read handlers.  `h`, `f`
and `b` are the SSA identifiers of the loaded qubit handle, the future
and the read boolean. -/
inductive RInstr where
  | loadQubitHandle (h : Nat) (q : Nat) -- load of `qis_qs[q]` (GEP folded)
  | lazyMeasure (f : Nat) (h : Nat)     -- `f = call ___lazy_measure(h)`
  | resetCall (h : Nat)                 -- `call ___reset(h)` (for `mresetz`)
  | readFutureBool (b : Nat) (f : Nat)  -- `b = call ___read_future_bool(f)`
  | decFutureRefcount (f : Nat)         -- `call ___dec_future_refcount(f)`
  | printBool (b : Nat)                 -- `call print_bool(tag, len, b)`
  deriving DecidableEq

/-- Entry-function call events relevant to deferred measurement:
`mz q i withReset` covers `__quantum__qis__{mz,m,mresetz}__body`
(with `withReset` true for `mresetz`), `readResult` covers
`__quantum__rt__read_result` and `recordOutput` covers
`__quantum__rt__result_record_output`. -/
inductive REvent where
  | mz (q i : Nat) (withReset : Bool)
  | readResult (i : Nat)
  | recordOutput (i : Nat)
  deriving DecidableEq

/-- Model of `handle_mz_call`: load the qubit handle from `qis_qs`,
emit the `___lazy_measure` call, unconditionally overwrite the result
cell with the new future and an empty cached bool, and (for `mresetz`)
emit `___reset`.  The original call is erased. -/
def stepMz (q i : Nat) (withReset : Bool) (s : RState) :
    Except String (RState × List RInstr) :=
  if i < s.resultSSA.length then
    Except.ok
      ({ resultSSA := s.resultSSA.set i (some (s.fresh + 1, none)),
         fresh := s.fresh + 2 },
       [.loadQubitHandle s.fresh q, .lazyMeasure (s.fresh + 1) s.fresh] ++
         (if withReset then [.resetCall s.fresh] else []))
  else Except.error "result index out of bounds"

/-- Model of `handle_read_result_call`: look up the future for the
result index (error when no measurement wrote it); on the first read
emit `___read_future_bool` and `___dec_future_refcount` and store the
boolean in the cell; afterwards reuse the cached boolean and emit
nothing further for the future.  For `result_record_output`
(`isRecord = true`) a `print_bool` call on the boolean is emitted; for
`read_result` all uses of the erased original call are replaced by the
returned boolean. -/
def stepRead (isRecord : Bool) (i : Nat) (s : RState) :
    Except String (RState × List RInstr × Nat) :=
  match s.resultSSA[i]? with
  | none => Except.error "result index out of bounds"
  | some none => Except.error "Expected measurement handle"
  | some (some (_f, some b)) =>
    Except.ok (s, (if isRecord then [.printBool b] else []), b)
  | some (some (f, none)) =>
    Except.ok
      ({ resultSSA := s.resultSSA.set i (some (f, some s.fresh)),
         fresh := s.fresh + 1 },
       [.readFutureBool s.fresh f, .decFutureRefcount f] ++
         (if isRecord then [.printBool s.fresh] else []),
       s.fresh)

/-- Dispatch of one event, also reporting the boolean SSA value that a
read produced (the value substituted for `read_result` uses, resp.
printed by `result_record_output`). -/
def stepEvent (e : REvent) (s : RState) :
    Except String (RState × List RInstr × Option Nat) :=
  match e with
  | .mz q i r =>
    match stepMz q i r s with
    | .ok (s', is) => Except.ok (s', is, none)
    | .error msg => Except.error msg
  | .readResult i =>
    match stepRead false i s with
    | .ok (s', is, b) => Except.ok (s', is, some b)
    | .error msg => Except.error msg
  | .recordOutput i =>
    match stepRead true i s with
    | .ok (s', is, b) => Except.ok (s', is, some b)
    | .error msg => Except.error msg

/-- Run a list of events, collecting the emitted instructions and, for
each read event, the boolean value it used. -/
def runEvents : List REvent → RState →
    Except String (RState × List RInstr × List (REvent × Nat))
  | [], s => Except.ok (s, [], [])
  | e :: es, s =>
    match stepEvent e s with
    | .error msg => Except.error msg
    | .ok (s₁, is₁, out) =>
      match runEvents es s₁ with
      | .error msg => Except.error msg
      | .ok (s₂, is₂, outs) =>
        Except.ok (s₂, is₁ ++ is₂,
          (match out with | some b => [(e, b)] | none => []) ++ outs)

/-- Event predicate: a measurement of result index `i`. -/
def REvent.isMzOf (i : Nat) : REvent → Bool
  | .mz _ j _ => j == i
  | _ => false

/-- Event predicate: a read (`read_result` or `result_record_output`)
of result index `i`. -/
def REvent.isReadOf (i : Nat) : REvent → Bool
  | .readResult j => j == i
  | .recordOutput j => j == i
  | _ => false

/-- Number of `___read_future_bool` calls on future `f`. -/
def countReadF (f : Nat) (l : List RInstr) : Nat :=
  l.countP (fun ins =>
    match ins with
    | .readFutureBool _ g => g == f
    | _ => false)

/-- Number of `___dec_future_refcount` calls on future `f`. -/
def countDecF (f : Nat) (l : List RInstr) : Nat :=
  l.countP (fun ins =>
    match ins with
    | .decFutureRefcount g => g == f
    | _ => false)

/-- Invariant tying a future `f` stored in cell `i` to the state: `f`
is below the fresh counter and no other cell stores `f`. -/
def CellInv (s : RState) (i f : Nat) : Prop :=
  f < s.fresh ∧
    ∀ j fc, j ≠ i → s.resultSSA[j]? = some (some fc) → fc.1 ≠ f

theorem countReadF_append (f : Nat) (l₁ l₂ : List RInstr) :
    countReadF f (l₁ ++ l₂) = countReadF f l₁ + countReadF f l₂ :=
  List.countP_append _ _ _

theorem countDecF_append (f : Nat) (l₁ l₂ : List RInstr) :
    countDecF f (l₁ ++ l₂) = countDecF f l₁ + countDecF f l₂ :=
  List.countP_append _ _ _

theorem stepRead_untouched (i f j : Nat) (k : Bool) (s s₁ : RState)
    (is₁ : List RInstr) (b : Nat)
    (hji : j ≠ i) (hinv : CellInv s i f)
    (hstep : stepRead k j s = Except.ok (s₁, is₁, b)) :
    countReadF f is₁ = 0 ∧ countDecF f is₁ = 0 ∧
      s₁.resultSSA[i]? = s.resultSSA[i]? ∧ CellInv s₁ i f := by
  obtain ⟨hf, hne⟩ := hinv
  match hc : s.resultSSA[j]? with
  | none => simp [stepRead, hc] at hstep
  | some none => simp [stepRead, hc] at hstep
  | some (some (fj, some bj)) =>
    simp only [stepRead, hc, Except.ok.injEq, Prod.mk.injEq] at hstep
    obtain ⟨h1, h2, h3⟩ := hstep
    subst h1 h2
    refine ⟨?_, ?_, rfl, hf, hne⟩ <;> cases k <;> simp [countReadF, countDecF]
  | some (some (fj, none)) =>
    have hfj : fj ≠ f := hne j (fj, none) hji hc
    simp only [stepRead, hc, Except.ok.injEq, Prod.mk.injEq] at hstep
    obtain ⟨h1, h2, h3⟩ := hstep
    subst h1 h2
    refine ⟨?_, ?_, ?_, ?_, ?_⟩
    · cases k <;> simp [countReadF, hfj]
    · cases k <;> simp [countDecF, hfj]
    · show (s.resultSSA.set j (some (fj, some s.fresh)))[i]? = s.resultSSA[i]?
      exact List.getElem?_set_ne hji
    · exact Nat.lt_succ_of_lt hf
    · intro j' fc hj'i hj'
      by_cases hj'j : j' = j
      · subst hj'j
        have hjlen : j' < s.resultSSA.length := by
          rcases List.getElem?_eq_some.mp hc with ⟨hlt, -⟩
          exact hlt
        replace hj' : (s.resultSSA.set j' (some (fj, some s.fresh)))[j']? =
            some (some fc) := hj'
        rw [List.getElem?_set_eq_of_lt _ hjlen] at hj'
        obtain rfl : (fj, some s.fresh) = fc := by simpa using hj'
        exact hfj
      · replace hj' : (s.resultSSA.set j (some (fj, some s.fresh)))[j']? =
            some (some fc) := hj'
        rw [List.getElem?_set_ne (Ne.symm hj'j)] at hj'
        exact hne j' fc hj'i hj'

theorem stepEvent_untouched (i f : Nat) (e : REvent) (s s₁ : RState)
    (is₁ : List RInstr) (out : Option Nat)
    (hmz : e.isMzOf i = false) (hrd : e.isReadOf i = false)
    (hinv : CellInv s i f)
    (hstep : stepEvent e s = Except.ok (s₁, is₁, out)) :
    countReadF f is₁ = 0 ∧ countDecF f is₁ = 0 ∧
      s₁.resultSSA[i]? = s.resultSSA[i]? ∧ CellInv s₁ i f := by
  obtain ⟨hf, hne⟩ := hinv
  cases e with
  | mz q j r =>
    have hji : j ≠ i := by
      simpa [REvent.isMzOf] using hmz
    by_cases hj : j < s.resultSSA.length
    · simp only [stepEvent, stepMz, if_pos hj, Except.ok.injEq, Prod.mk.injEq] at hstep
      obtain ⟨h1, h2, h3⟩ := hstep
      subst h1 h2
      refine ⟨?_, ?_, ?_, ?_, ?_⟩
      · cases r <;> simp [countReadF]
      · cases r <;> simp [countDecF]
      · show (s.resultSSA.set j (some (s.fresh + 1, none)))[i]? = s.resultSSA[i]?
        exact List.getElem?_set_ne hji
      · show f < s.fresh + 2
        omega
      · intro j' fc hj'i hj'
        by_cases hj'j : j' = j
        · subst hj'j
          replace hj' : (s.resultSSA.set j' (some (s.fresh + 1, none)))[j']? =
              some (some fc) := hj'
          rw [List.getElem?_set_eq_of_lt _ hj] at hj'
          obtain rfl : (s.fresh + 1, (none : Option Nat)) = fc := by simpa using hj'
          omega
        · replace hj' : (s.resultSSA.set j (some (s.fresh + 1, none)))[j']? =
              some (some fc) := hj'
          rw [List.getElem?_set_ne (Ne.symm hj'j)] at hj'
          exact fun hfeq => hne j' fc hj'i hj' hfeq
    · simp [stepEvent, stepMz, hj] at hstep
  | readResult j =>
    have hji : j ≠ i := by
      simpa [REvent.isReadOf] using hrd
    match hsr : stepRead false j s with
    | .error msg => simp [stepEvent, hsr] at hstep
    | .ok (s₁', is₁', b) =>
      simp only [stepEvent, hsr, Except.ok.injEq, Prod.mk.injEq] at hstep
      obtain ⟨h1, h2, h3⟩ := hstep
      subst h1 h2
      exact stepRead_untouched i f j false s _ _ b hji ⟨hf, hne⟩ hsr
  | recordOutput j =>
    have hji : j ≠ i := by
      simpa [REvent.isReadOf] using hrd
    match hsr : stepRead true j s with
    | .error msg => simp [stepEvent, hsr] at hstep
    | .ok (s₁', is₁', b) =>
      simp only [stepEvent, hsr, Except.ok.injEq, Prod.mk.injEq] at hstep
      obtain ⟨h1, h2, h3⟩ := hstep
      subst h1 h2
      exact stepRead_untouched i f j true s _ _ b hji ⟨hf, hne⟩ hsr

theorem stepEvent_read_cached (i f b : Nat) (e : REvent) (s s₁ : RState)
    (is₁ : List RInstr) (out : Option Nat)
    (hre : e.isReadOf i = true)
    (hcell : s.resultSSA[i]? = some (some (f, some b)))
    (hstep : stepEvent e s = Except.ok (s₁, is₁, out)) :
    countReadF f is₁ = 0 ∧ countDecF f is₁ = 0 ∧ out = some b ∧ s₁ = s := by
  cases e with
  | mz q j r => simp [REvent.isReadOf] at hre
  | readResult j =>
    obtain rfl : j = i := by simpa [REvent.isReadOf] using hre
    simp only [stepEvent, stepRead, hcell, Bool.false_eq_true, if_neg,
      Except.ok.injEq, Prod.mk.injEq] at hstep
    obtain ⟨h1, h2, h3⟩ := hstep
    subst h1 h2 h3
    simp [countReadF, countDecF]
  | recordOutput j =>
    obtain rfl : j = i := by simpa [REvent.isReadOf] using hre
    simp only [stepEvent, stepRead, hcell, if_pos,
      Except.ok.injEq, Prod.mk.injEq] at hstep
    obtain ⟨h1, h2, h3⟩ := hstep
    subst h1 h2 h3
    simp [countReadF, countDecF]

theorem stepEvent_read_pending (i f : Nat) (e : REvent) (s s₁ : RState)
    (is₁ : List RInstr) (out : Option Nat)
    (hre : e.isReadOf i = true)
    (hcell : s.resultSSA[i]? = some (some (f, none)))
    (hstep : stepEvent e s = Except.ok (s₁, is₁, out)) :
    countReadF f is₁ = 1 ∧ countDecF f is₁ = 1 ∧ out = some s.fresh ∧
      s₁ = { resultSSA := s.resultSSA.set i (some (f, some s.fresh)),
             fresh := s.fresh + 1 } := by
  cases e with
  | mz q j r => simp [REvent.isReadOf] at hre
  | readResult j =>
    obtain rfl : j = i := by simpa [REvent.isReadOf] using hre
    simp only [stepEvent, stepRead, hcell, Except.ok.injEq, Prod.mk.injEq] at hstep
    obtain ⟨h1, h2, h3⟩ := hstep
    subst h1 h2 h3
    simp [countReadF, countDecF]
  | recordOutput j =>
    obtain rfl : j = i := by simpa [REvent.isReadOf] using hre
    simp only [stepEvent, stepRead, hcell, Except.ok.injEq, Prod.mk.injEq] at hstep
    obtain ⟨h1, h2, h3⟩ := hstep
    subst h1 h2 h3
    simp [countReadF, countDecF]

theorem runEvents_cached (i f b : Nat) :
    ∀ (es : List REvent) (s sFin : RState) (instrs : List RInstr)
      (outs : List (REvent × Nat)),
      s.resultSSA[i]? = some (some (f, some b)) →
      CellInv s i f →
      (∀ e ∈ es, e.isMzOf i = false) →
      runEvents es s = Except.ok (sFin, instrs, outs) →
      countReadF f instrs = 0 ∧ countDecF f instrs = 0 ∧
        ∀ p ∈ outs, p.1.isReadOf i = true → p.2 = b := by
  intro es
  induction es with
  | nil =>
    intro s sFin instrs outs hcell hinv hnomz hrun
    simp only [runEvents, Except.ok.injEq, Prod.mk.injEq] at hrun
    obtain ⟨-, h2, h3⟩ := hrun
    subst h2 h3
    simp [countReadF, countDecF]
  | cons e es ih =>
    intro s sFin instrs outs hcell hinv hnomz hrun
    match hstep : stepEvent e s with
    | .error msg => simp [runEvents, hstep] at hrun
    | .ok (s₁, is₁, out) =>
      match hrun₂ : runEvents es s₁ with
      | .error msg => simp [runEvents, hstep, hrun₂] at hrun
      | .ok (s₂, is₂, outs₂) =>
        simp only [runEvents, hstep, hrun₂, Except.ok.injEq,
          Prod.mk.injEq] at hrun
        obtain ⟨h1, h2, h3⟩ := hrun
        subst h1 h2 h3
        have hnomz' : ∀ e' ∈ es, e'.isMzOf i = false := fun e' he' =>
          hnomz e' (List.mem_cons_of_mem e he')
        by_cases hre : e.isReadOf i = true
        · obtain ⟨hcr, hcd, hout, hs⟩ :=
            stepEvent_read_cached i f b e s s₁ is₁ out hre hcell hstep
          subst hs hout
          obtain ⟨hr₂, hd₂, hb₂⟩ := ih s₁ s₂ is₂ outs₂ hcell hinv hnomz' hrun₂
          refine ⟨?_, ?_, ?_⟩
          · rw [countReadF_append, hcr, hr₂]
          · rw [countDecF_append, hcd, hd₂]
          · intro p hp hpred
            rcases List.mem_append.mp hp with hp | hp
            · obtain rfl : p = (e, b) := by simpa using hp
              rfl
            · exact hb₂ p hp hpred
        · obtain ⟨hcr, hcd, hpres, hinv'⟩ :=
            stepEvent_untouched i f e s s₁ is₁ out
              (hnomz e (List.mem_cons_self e es)) (by simpa using hre) hinv hstep
          obtain ⟨hr₂, hd₂, hb₂⟩ :=
            ih s₁ s₂ is₂ outs₂ (hpres.trans hcell) hinv' hnomz' hrun₂
          refine ⟨?_, ?_, ?_⟩
          · rw [countReadF_append, hcr, hr₂]
          · rw [countDecF_append, hcd, hd₂]
          · intro p hp hpred
            rcases List.mem_append.mp hp with hp | hp
            · exfalso
              match out, hp with
              | some v, hp =>
                obtain rfl : p = (e, v) := by simpa using hp
                exact hre hpred
              | none, hp => simp at hp
            · exact hb₂ p hp hpred

theorem runEvents_single_pair (i f : Nat) :
    ∀ (es : List REvent) (s sFin : RState) (instrs : List RInstr)
      (outs : List (REvent × Nat)),
      s.resultSSA[i]? = some (some (f, none)) →
      CellInv s i f →
      (∀ e ∈ es, e.isMzOf i = false) →
      (∃ e ∈ es, e.isReadOf i = true) →
      runEvents es s = Except.ok (sFin, instrs, outs) →
      countReadF f instrs = 1 ∧ countDecF f instrs = 1 ∧
        ∃ b, ∀ p ∈ outs, p.1.isReadOf i = true → p.2 = b := by
  intro es
  induction es with
  | nil =>
    intro s sFin instrs outs hcell hinv hnomz hread hrun
    simp at hread
  | cons e es ih =>
    intro s sFin instrs outs hcell hinv hnomz hread hrun
    match hstep : stepEvent e s with
    | .error msg => simp [runEvents, hstep] at hrun
    | .ok (s₁, is₁, out) =>
      match hrun₂ : runEvents es s₁ with
      | .error msg => simp [runEvents, hstep, hrun₂] at hrun
      | .ok (s₂, is₂, outs₂) =>
        simp only [runEvents, hstep, hrun₂, Except.ok.injEq,
          Prod.mk.injEq] at hrun
        obtain ⟨h1, h2, h3⟩ := hrun
        subst h1 h2 h3
        have hnomz' : ∀ e' ∈ es, e'.isMzOf i = false := fun e' he' =>
          hnomz e' (List.mem_cons_of_mem e he')
        by_cases hre : e.isReadOf i = true
        · obtain ⟨hcr, hcd, hout, hs⟩ :=
            stepEvent_read_pending i f e s s₁ is₁ out hre hcell hstep
          subst hout
          have hlen : i < s.resultSSA.length := by
            rcases List.getElem?_eq_some.mp hcell with ⟨hlt, -⟩
            exact hlt
          have hcell' : s₁.resultSSA[i]? = some (some (f, some s.fresh)) := by
            rw [hs]
            exact List.getElem?_set_eq_of_lt _ hlen
          have hinv' : CellInv s₁ i f := by
            rw [hs]
            obtain ⟨hf, hne⟩ := hinv
            refine ⟨Nat.lt_succ_of_lt hf, ?_⟩
            intro j fc hji hj
            replace hj : (s.resultSSA.set i (some (f, some s.fresh)))[j]? =
                some (some fc) := hj
            rw [List.getElem?_set_ne (Ne.symm hji)] at hj
            exact hne j fc hji hj
          obtain ⟨hr₂, hd₂, hb₂⟩ :=
            runEvents_cached i f s.fresh es s₁ s₂ is₂ outs₂ hcell' hinv' hnomz' hrun₂
          refine ⟨?_, ?_, ⟨s.fresh, ?_⟩⟩
          · rw [countReadF_append, hcr, hr₂]
          · rw [countDecF_append, hcd, hd₂]
          · intro p hp hpred
            rcases List.mem_append.mp hp with hp | hp
            · obtain rfl : p = (e, s.fresh) := by simpa using hp
              rfl
            · exact hb₂ p hp hpred
        · obtain ⟨hcr, hcd, hpres, hinv'⟩ :=
            stepEvent_untouched i f e s s₁ is₁ out
              (hnomz e (List.mem_cons_self e es)) (by simpa using hre) hinv hstep
          have hread' : ∃ e' ∈ es, e'.isReadOf i = true := by
            obtain ⟨e', he'mem, he'⟩ := hread
            rcases List.mem_cons.mp he'mem with rfl | he'mem
            · exact absurd he' hre
            · exact ⟨e', he'mem, he'⟩
          obtain ⟨hr₂, hd₂, b, hb₂⟩ :=
            ih s₁ s₂ is₂ outs₂ (hpres.trans hcell) hinv' hnomz' hread' hrun₂
          refine ⟨?_, ?_, ⟨b, ?_⟩⟩
          · rw [countReadF_append, hcr, hr₂]
          · rw [countDecF_append, hcd, hd₂]
          · intro p hp hpred
            rcases List.mem_append.mp hp with hp | hp
            · exfalso
              match out, hp with
              | some v, hp =>
                obtain rfl : p = (e, v) := by simpa using hp
                exact hre hpred
              | none, hp => simp at hp
            · exact hb₂ p hp hpred

/-- C1: after a measurement writes the future `s₀.fresh + 1` for result
index `i`, as long as `i` is not measured again, the instructions
emitted while processing any following events contain exactly one
`___read_future_bool` call and exactly one `___dec_future_refcount`
call for that future — provided at least one read of `i` occurs — and
every read of `i` (by `read_result` or `result_record_output`) uses one
and the same boolean SSA value; in particular a second `read_result` on
`i` is replaced by the same SSA value as the first.  The hypothesis
`hbound` states that every future already stored in the table is below
the fresh counter, which holds in every reachable state. -/
theorem measurement_read_once (q i : Nat) (withReset : Bool)
    (s₀ s₁ sFin : RState) (mis instrs : List RInstr) (post : List REvent)
    (outs : List (REvent × Nat))
    (hbound : ∀ (j : Nat) (fc : Nat × Option Nat),
      s₀.resultSSA[j]? = some (some fc) → fc.1 < s₀.fresh)
    (hmz : stepMz q i withReset s₀ = Except.ok (s₁, mis))
    (hnomz : ∀ e ∈ post, e.isMzOf i = false)
    (hread : ∃ e ∈ post, e.isReadOf i = true)
    (hrun : runEvents post s₁ = Except.ok (sFin, instrs, outs)) :
    countReadF (s₀.fresh + 1) instrs = 1 ∧
      countDecF (s₀.fresh + 1) instrs = 1 ∧
      ∃ b, ∀ p ∈ outs, p.1.isReadOf i = true → p.2 = b := by
  by_cases hi : i < s₀.resultSSA.length
  · simp only [stepMz, if_pos hi, Except.ok.injEq, Prod.mk.injEq] at hmz
    obtain ⟨h1, -⟩ := hmz
    have hcell : s₁.resultSSA[i]? = some (some (s₀.fresh + 1, none)) := by
      rw [← h1]
      exact List.getElem?_set_eq_of_lt _ hi
    have hinv : CellInv s₁ i (s₀.fresh + 1) := by
      rw [← h1]
      refine ⟨Nat.lt_succ_self _, ?_⟩
      intro j fc hji hj
      replace hj : (s₀.resultSSA.set i (some (s₀.fresh + 1, none)))[j]? =
          some (some fc) := hj
      rw [List.getElem?_set_ne (Ne.symm hji)] at hj
      have := hbound j fc hj
      omega
    exact runEvents_single_pair i (s₀.fresh + 1) post s₁ sFin instrs outs
      hcell hinv hnomz hread hrun
  · simp [stepMz, hi] at hmz

/-- Witness for C1: one measurement of index 0 followed by
`read_result; result_record_output; read_result` emits exactly one
read/dec pair for the future (SSA 1) and every read uses the same
boolean (SSA 2). -/
theorem measurement_read_once_witness :
    countReadF 1 [.readFutureBool 2 1, .decFutureRefcount 1, .printBool 2] = 1 ∧
      countDecF 1 [.readFutureBool 2 1, .decFutureRefcount 1, .printBool 2] = 1 ∧
      ∃ b, ∀ p ∈ [((REvent.readResult 0 : REvent), 2), (REvent.recordOutput 0, 2),
          (REvent.readResult 0, 2)], p.1.isReadOf 0 = true → p.2 = b :=
  measurement_read_once 0 0 false ⟨[none], 0⟩ ⟨[some (1, none)], 2⟩
    ⟨[some (1, some 2)], 3⟩ [.loadQubitHandle 0 0, .lazyMeasure 1 0]
    [.readFutureBool 2 1, .decFutureRefcount 1, .printBool 2]
    [.readResult 0, .recordOutput 0, .readResult 0]
    [(.readResult 0, 2), (.recordOutput 0, 2), (.readResult 0, 2)]
    (by
      intro j fc hj
      match j, hj with
      | 0, hj => simp at hj
      | k + 1, hj => simp at hj)
    rfl (by decide) (by decide) rfl

/-- C9: a measurement of result index `i` unconditionally overwrites
cell `i` with the new future and an empty cached bool — even when the
cell already holds a read future with a cached boolean — so the next
read of `i` emits a fresh `___read_future_bool`/`___dec_future_refcount`
pair for the new future (not the old one) and produces a boolean SSA
value distinct from the one cached before the re-measurement. -/
theorem remeasure_fresh_pair (q i f₀ b₀ : Nat) (withReset isRecord : Bool)
    (s : RState)
    (hcell : s.resultSSA[i]? = some (some (f₀, some b₀)))
    (hf : f₀ < s.fresh) (hb : b₀ < s.fresh) :
    ∃ s₁ mis, stepMz q i withReset s = Except.ok (s₁, mis) ∧
      s₁.resultSSA[i]? = some (some (s.fresh + 1, none)) ∧
      s.fresh + 1 ≠ f₀ ∧
      ∃ s₂ is₂ b, stepRead isRecord i s₁ = Except.ok (s₂, is₂, b) ∧
        is₂ = [.readFutureBool b (s.fresh + 1), .decFutureRefcount (s.fresh + 1)] ++
          (if isRecord then [.printBool b] else []) ∧
        b = s.fresh + 2 ∧ b ≠ b₀ := by
  have hi : i < s.resultSSA.length := by
    rcases List.getElem?_eq_some.mp hcell with ⟨hlt, -⟩
    exact hlt
  refine ⟨⟨s.resultSSA.set i (some (s.fresh + 1, none)), s.fresh + 2⟩,
    [.loadQubitHandle s.fresh q, .lazyMeasure (s.fresh + 1) s.fresh] ++
      (if withReset then [.resetCall s.fresh] else []),
    ?_, ?_, ?_, ?_⟩
  · simp [stepMz, hi]
  · exact List.getElem?_set_eq_of_lt _ hi
  · omega
  · have hcell₁ : (s.resultSSA.set i (some (s.fresh + 1, none)))[i]? =
        some (some (s.fresh + 1, none)) :=
      List.getElem?_set_eq_of_lt _ hi
    refine ⟨⟨(s.resultSSA.set i (some (s.fresh + 1, none))).set i
        (some (s.fresh + 1, some (s.fresh + 2))), s.fresh + 3⟩,
      _, s.fresh + 2, ?_, rfl, rfl, by omega⟩
    show stepRead isRecord i
      ⟨s.resultSSA.set i (some (s.fresh + 1, none)), s.fresh + 2⟩ = _
    simp only [stepRead, hcell₁]

/-- Witness for C9: index 0 holds a read future (0) with cached bool
(1); re-measuring and reading again yields the new future 3 and the
fresh boolean 4 ≠ 1. -/
theorem remeasure_fresh_pair_witness :
    ∃ s₁ mis, stepMz 7 0 false ⟨[some (0, some 1)], 2⟩ = Except.ok (s₁, mis) ∧
      s₁.resultSSA[0]? = some (some (3, none)) ∧
      (3 : Nat) ≠ 0 ∧
      ∃ s₂ is₂ b, stepRead false 0 s₁ = Except.ok (s₂, is₂, b) ∧
        is₂ = [.readFutureBool b 3, .decFutureRefcount 3] ++
          (if false then [.printBool b] else []) ∧
        b = 4 ∧ b ≠ 1 :=
  remeasure_fresh_pair 7 0 0 1 false false ⟨[some (0, some 1)], 2⟩ rfl
    (by decide) (by decide)

end QirQis
